import Mathlib

/-!
Shallow embedding of the RAG pipeline of `rag.py` (you-kb repository).

Modelling conventions:
- Python strings are modelled as `List Char`.
- Python floats carrying timestamps are modelled as `ℚ`; every timestamp the
  code manipulates is a decimal numeral, so `ℚ` represents it exactly.
- External capabilities (embedding model, generative model, MD5, vector
  search) are modelled as function parameters: the code treats them as
  opaque calls.
-/

/-- Characters removed by Python `str.strip()` with no argument (ASCII
whitespace as classified by `str.isspace`). -/
def isPySpace (c : Char) : Bool :=
  c = ' ' || c = '\t' || c = '\n' || c = '\r' || c = '\x0b' || c = '\x0c'

/-- Python `str.lstrip()`. -/
def pyLStrip (s : List Char) : List Char := s.dropWhile isPySpace

/-- Python `str.rstrip()`. -/
def pyRStrip (s : List Char) : List Char := (s.reverse.dropWhile isPySpace).reverse

/-- Python `str.strip()`. -/
def pyStrip (s : List Char) : List Char := pyRStrip (pyLStrip s)

/-- One timestamped span of text: the `{"ts": ..., "text": ...}` dictionaries
produced by the parsers in `rag.py`. -/
structure Entry where
  ts : ℚ
  text : List Char
deriving DecidableEq, Repr

/-- One output of the chunker: the `{"text": ..., "ts": ...}` dictionaries
produced by `create_content_chunks` in `rag.py`. -/
structure Chunk where
  text : List Char
  ts : ℚ
deriving DecidableEq, Repr

/-- Loop of `create_content_chunks` (rag.py lines 256-274): greedy
accumulation of entry texts into a pending buffer `cur` whose representative
timestamp is `curTs`.  The Python loop runs over the entries and seals the
buffer (stripped) whenever appending the next entry text would exceed
`chunkSize`; after the loop a non-whitespace remainder is sealed as well. -/
def cccLoop (chunkSize : ℕ) : List Entry → List Char → ℚ → List Chunk
  | [], cur, curTs =>
    if pyStrip cur ≠ [] then [⟨pyStrip cur, curTs⟩] else []
  | e :: es, cur, curTs =>
    if chunkSize < cur.length + e.text.length then
      (if pyStrip cur ≠ [] then [⟨pyStrip cur, curTs⟩] else []) ++
        cccLoop chunkSize es (e.text ++ [' ']) e.ts
    else
      cccLoop chunkSize es (cur ++ e.text ++ [' ']) curTs

/-- rag.py `create_content_chunks(entries, file_type, chunk_size=1000)`:
chunks entries into passages of bounded size.  `fileType` is accepted but
unused, exactly as in the source. -/
def create_content_chunks (entries : List Entry) (fileType : List Char)
    (chunkSize : ℕ) : List Chunk :=
  if entries = [] then []
  else cccLoop chunkSize entries [] ((entries.headD ⟨0, []⟩).ts)

/-- Text of a document or chunk list with every whitespace character removed:
the comparison the chunk-coverage property is stated under. -/
def filterText (s : List Char) : List Char := s.filter (fun c => !isPySpace c)

theorem dropWhile_idem (p : Char → Bool) (s : List Char) :
    (s.dropWhile p).dropWhile p = s.dropWhile p := by
  induction s with
  | nil => rfl
  | cons c cs ih =>
    by_cases h : p c
    · simpa [List.dropWhile_cons, h] using ih
    · simp [List.dropWhile_cons, h]

theorem dropWhile_length_le (p : Char → Bool) (s : List Char) :
    (s.dropWhile p).length ≤ s.length := by
  induction s with
  | nil => simp
  | cons c cs ih =>
    rw [List.dropWhile_cons]
    by_cases h : p c
    · simp only [h, if_pos]
      simp
      omega
    · simp [h]

theorem pyLStrip_idem (s : List Char) : pyLStrip (pyLStrip s) = pyLStrip s :=
  dropWhile_idem _ s

theorem pyRStrip_idem (s : List Char) : pyRStrip (pyRStrip s) = pyRStrip s := by
  simp [pyRStrip, dropWhile_idem]

theorem pyRStrip_cons (c : Char) (cs : List Char) :
    pyRStrip (c :: cs) =
      if pyRStrip cs = [] then (if isPySpace c then [] else [c])
      else c :: pyRStrip cs := by
  unfold pyRStrip
  rw [show (c :: cs).reverse = cs.reverse ++ [c] by simp]
  rw [List.dropWhile_append]
  by_cases h : cs.reverse.dropWhile isPySpace = []
  · rw [if_pos (by simp [h]), if_pos (by simp [h])]
    by_cases hc : isPySpace c
    · simp [List.dropWhile_cons, hc]
    · simp [List.dropWhile_cons, hc]
  · rw [if_neg (by simpa using h), if_neg (by simpa using h)]
    simp

theorem pyLStrip_fix_pyRStrip (t : List Char) :
    pyLStrip (pyRStrip (pyLStrip t)) = pyRStrip (pyLStrip t) := by
  induction t with
  | nil => rfl
  | cons c cs ih =>
    by_cases h : isPySpace c
    · have h1 : pyLStrip (c :: cs) = pyLStrip cs := by
        simp [pyLStrip, List.dropWhile_cons, h]
      rw [h1]
      exact ih
    · have h1 : pyLStrip (c :: cs) = c :: cs := by
        simp [pyLStrip, List.dropWhile_cons, h]
      rw [h1, pyRStrip_cons]
      by_cases h2 : pyRStrip cs = []
      · simp only [h2, if_pos, h, if_neg, Bool.false_eq_true, not_false_iff, if_true]
        simp [pyLStrip, List.dropWhile_cons, h]
      · simp only [h2, if_neg]
        simp [pyLStrip, List.dropWhile_cons, h]

theorem pyStrip_idem (s : List Char) : pyStrip (pyStrip s) = pyStrip s := by
  show pyRStrip (pyLStrip (pyRStrip (pyLStrip s))) = pyRStrip (pyLStrip s)
  rw [pyLStrip_fix_pyRStrip, pyRStrip_idem]

theorem filterText_pyLStrip (s : List Char) : filterText (pyLStrip s) = filterText s := by
  induction s with
  | nil => rfl
  | cons c cs ih =>
    by_cases h : isPySpace c
    · have h1 : pyLStrip (c :: cs) = pyLStrip cs := by
        simp [pyLStrip, List.dropWhile_cons, h]
      have h2 : filterText (c :: cs) = filterText cs := by
        simp [filterText, List.filter_cons, h]
      rw [h1, h2, ih]
    · have h1 : pyLStrip (c :: cs) = c :: cs := by
        simp [pyLStrip, List.dropWhile_cons, h]
      rw [h1]

theorem filterText_reverse (s : List Char) :
    filterText s.reverse = (filterText s).reverse := by
  simp [filterText]

theorem filterText_pyRStrip (s : List Char) : filterText (pyRStrip s) = filterText s := by
  unfold pyRStrip
  rw [filterText_reverse]
  rw [show s.reverse.dropWhile isPySpace = pyLStrip s.reverse from rfl]
  rw [filterText_pyLStrip, filterText_reverse]
  simp

theorem filterText_pyStrip (s : List Char) : filterText (pyStrip s) = filterText s := by
  unfold pyStrip
  rw [filterText_pyRStrip, filterText_pyLStrip]

theorem filterText_append (s t : List Char) :
    filterText (s ++ t) = filterText s ++ filterText t := by
  simp [filterText]

theorem pyStrip_nil_filterText (s : List Char) (h : pyStrip s = []) :
    filterText s = [] := by
  rw [← filterText_pyStrip, h]
  rfl

theorem pyLStrip_length_le (s : List Char) : (pyLStrip s).length ≤ s.length :=
  dropWhile_length_le _ _

theorem pyStrip_length_le (s : List Char) : (pyStrip s).length ≤ s.length := by
  unfold pyStrip pyRStrip
  calc ((pyLStrip s).reverse.dropWhile isPySpace).reverse.length
      = ((pyLStrip s).reverse.dropWhile isPySpace).length := by simp
    _ ≤ (pyLStrip s).reverse.length := dropWhile_length_le _ _
    _ = (pyLStrip s).length := by simp
    _ ≤ s.length := pyLStrip_length_le s

theorem pyRStrip_append_space (s : List Char) : pyRStrip (s ++ [' ']) = pyRStrip s := by
  unfold pyRStrip
  rw [show (s ++ [' ']).reverse = ' ' :: s.reverse by simp]
  rw [List.dropWhile_cons_of_pos (by decide)]

theorem pyStrip_append_space (s : List Char) : pyStrip (s ++ [' ']) = pyStrip s := by
  unfold pyStrip
  rcases h : pyLStrip s with _ | ⟨c, cs⟩
  · have h2 : pyLStrip (s ++ [' ']) = [] := by
      unfold pyLStrip at h ⊢
      rw [List.dropWhile_append, h]
      simp [List.dropWhile_cons, isPySpace]
    rw [h2]
  · have h2 : pyLStrip (s ++ [' ']) = (c :: cs) ++ [' '] := by
      unfold pyLStrip at h ⊢
      rw [List.dropWhile_append, h]
      simp
    rw [h2]
    exact pyRStrip_append_space (c :: cs)

theorem cccLoop_budget (size : ℕ) (L : List Entry) :
    ∀ (es : List Entry) (cur : List Char) (ts : ℚ),
      (∀ e ∈ es, e ∈ L) →
      ((pyStrip cur).length ≤ size ∨
        ∃ e ∈ L, pyStrip cur = pyStrip e.text ∧ size < e.text.length) →
      ∀ c ∈ cccLoop size es cur ts,
        c.text.length ≤ size ∨
          ∃ e ∈ L, c.text = pyStrip e.text ∧ size < e.text.length
  | [], cur, ts, _, hcur, c, hc => by
    unfold cccLoop at hc
    by_cases hg : pyStrip cur ≠ []
    · rw [if_pos hg] at hc
      rcases List.mem_singleton.mp hc with rfl
      rcases hcur with h | ⟨e, he, hcs, hlt⟩
      · exact Or.inl h
      · exact Or.inr ⟨e, he, hcs, hlt⟩
    · rw [if_neg hg] at hc
      exact absurd hc (List.not_mem_nil c)
  | e :: es, cur, ts, hmem, hcur, c, hc => by
    unfold cccLoop at hc
    by_cases hover : size < cur.length + e.text.length
    · rw [if_pos hover] at hc
      rcases List.mem_append.mp hc with hseal | hrest
      · by_cases hg : pyStrip cur ≠ []
        · rw [if_pos hg] at hseal
          rcases List.mem_singleton.mp hseal with rfl
          rcases hcur with h | ⟨e0, he0, hcs, hlt⟩
          · exact Or.inl h
          · exact Or.inr ⟨e0, he0, hcs, hlt⟩
        · rw [if_neg hg] at hseal
          exact absurd hseal (List.not_mem_nil c)
      · refine cccLoop_budget size L es (e.text ++ [' ']) e.ts
          (fun x hx => hmem x (List.mem_cons_of_mem e hx)) ?_ c hrest
        rw [pyStrip_append_space]
        by_cases hle : e.text.length ≤ size
        · exact Or.inl (le_trans (pyStrip_length_le e.text) hle)
        · exact Or.inr ⟨e, hmem e (List.mem_cons_self e es), rfl, by omega⟩
    · rw [if_neg hover] at hc
      refine cccLoop_budget size L es (cur ++ e.text ++ [' ']) ts
        (fun x hx => hmem x (List.mem_cons_of_mem e hx)) ?_ c hc
      left
      rw [List.append_assoc, ← List.append_assoc cur, pyStrip_append_space]
      calc (pyStrip (cur ++ e.text)).length ≤ (cur ++ e.text).length :=
            pyStrip_length_le _
        _ ≤ size := by simp; omega

/-- Claim C3: every chunk respects the size budget, except that a chunk made
of a single oversized entry carries that entry's text (stripped), untruncated
and unsplit. -/
theorem chunk_budget_invariant (entries : List Entry) (fileType : List Char)
    (size : ℕ) :
    ∀ c ∈ create_content_chunks entries fileType size,
      c.text.length ≤ size ∨
        ∃ e ∈ entries, c.text = pyStrip e.text ∧ size < e.text.length := by
  intro c hc
  unfold create_content_chunks at hc
  by_cases hne : entries = []
  · rw [if_pos hne] at hc
    exact absurd hc (List.not_mem_nil c)
  · rw [if_neg hne] at hc
    exact cccLoop_budget size entries entries [] _ (fun x hx => hx)
      (Or.inl (by simp [pyStrip, pyLStrip, pyRStrip])) c hc

theorem chunk_budget_invariant_witness :
    (Chunk.mk "abcde".data 0).text.length ≤ 3 ∨
      ∃ e ∈ [Entry.mk 0 "abcde".data],
        (Chunk.mk "abcde".data 0).text = pyStrip e.text ∧ 3 < e.text.length :=
  chunk_budget_invariant [Entry.mk 0 "abcde".data] "txt".data 3
    (Chunk.mk "abcde".data 0) (by decide)

theorem filterText_space : filterText [' '] = [] := by decide

theorem sealFilterText (cur : List Char) (ts : ℚ) :
    filterText (((if pyStrip cur ≠ [] then [(⟨pyStrip cur, ts⟩ : Chunk)] else []).map
        Chunk.text).flatten) = filterText cur := by
  by_cases hg : pyStrip cur ≠ []
  · rw [if_pos hg]
    simp only [List.map_cons, List.map_nil, List.flatten_cons, List.flatten_nil,
      List.append_nil]
    exact filterText_pyStrip cur
  · rw [if_neg hg]
    push_neg at hg
    simp only [List.map_nil, List.flatten_nil]
    exact (pyStrip_nil_filterText cur hg).symm

theorem cccLoop_coverage (size : ℕ) :
    ∀ (es : List Entry) (cur : List Char) (ts : ℚ),
      filterText (((cccLoop size es cur ts).map Chunk.text).flatten)
        = filterText (cur ++ ((es.map Entry.text).flatten))
  | [], cur, ts => by
    unfold cccLoop
    rw [List.map_nil, List.flatten_nil, List.append_nil]
    exact sealFilterText cur ts
  | e :: es, cur, ts => by
    unfold cccLoop
    by_cases hover : size < cur.length + e.text.length
    · rw [if_pos hover]
      rw [List.map_append, List.flatten_append, filterText_append]
      rw [sealFilterText cur ts]
      rw [cccLoop_coverage size es (e.text ++ [' ']) e.ts]
      simp only [List.map_cons, List.flatten_cons, filterText_append,
        filterText_space]
      simp
    · rw [if_neg hover]
      rw [cccLoop_coverage size es (cur ++ e.text ++ [' ']) ts]
      simp only [List.map_cons, List.flatten_cons, filterText_append,
        filterText_space]
      simp

/-- Claim C4: concatenating all chunk texts, ignoring whitespace, reproduces
the concatenation of all entry texts in order, with nothing lost and nothing
duplicated. -/
theorem chunk_coverage (entries : List Entry) (fileType : List Char) (size : ℕ) :
    filterText (((create_content_chunks entries fileType size).map Chunk.text).flatten)
      = filterText ((entries.map Entry.text).flatten) := by
  unfold create_content_chunks
  by_cases hne : entries = []
  · rw [if_pos hne, hne]
    rfl
  · rw [if_neg hne]
    rw [cccLoop_coverage size entries [] _]
    rfl

theorem cccLoop_nonempty_stripped (size : ℕ) :
    ∀ (es : List Entry) (cur : List Char) (ts : ℚ),
      ∀ c ∈ cccLoop size es cur ts, c.text ≠ [] ∧ pyStrip c.text = c.text
  | [], cur, ts, c, hc => by
    unfold cccLoop at hc
    by_cases hg : pyStrip cur ≠ []
    · rw [if_pos hg] at hc
      rcases List.mem_singleton.mp hc with rfl
      exact ⟨hg, pyStrip_idem cur⟩
    · rw [if_neg hg] at hc
      exact absurd hc (List.not_mem_nil c)
  | e :: es, cur, ts, c, hc => by
    unfold cccLoop at hc
    by_cases hover : size < cur.length + e.text.length
    · rw [if_pos hover] at hc
      rcases List.mem_append.mp hc with hseal | hrest
      · by_cases hg : pyStrip cur ≠ []
        · rw [if_pos hg] at hseal
          rcases List.mem_singleton.mp hseal with rfl
          exact ⟨hg, pyStrip_idem cur⟩
        · rw [if_neg hg] at hseal
          exact absurd hseal (List.not_mem_nil c)
      · exact cccLoop_nonempty_stripped size es (e.text ++ [' ']) e.ts c hrest
    · rw [if_neg hover] at hc
      exact cccLoop_nonempty_stripped size es (cur ++ e.text ++ [' ']) ts c hc

/-- Claim C10: every chunk produced by create_content_chunks has non-empty
text equal to its own stripped form, even when some entries are empty or
whitespace-only. -/
theorem chunk_text_nonempty_stripped (entries : List Entry) (fileType : List Char)
    (size : ℕ) :
    ∀ c ∈ create_content_chunks entries fileType size,
      c.text ≠ [] ∧ pyStrip c.text = c.text := by
  intro c hc
  unfold create_content_chunks at hc
  by_cases hne : entries = []
  · rw [if_pos hne] at hc
    exact absurd hc (List.not_mem_nil c)
  · rw [if_neg hne] at hc
    exact cccLoop_nonempty_stripped size entries [] _ c hc

theorem chunk_text_nonempty_stripped_witness :
    (Chunk.mk "hi".data 0).text ≠ [] ∧
      pyStrip (Chunk.mk "hi".data 0).text = (Chunk.mk "hi".data 0).text :=
  chunk_text_nonempty_stripped [Entry.mk 0 "  ".data, Entry.mk 0 "hi".data]
    "txt".data 5 (Chunk.mk "hi".data 0) (by decide)

/-- Anchored match of exactly `n` decimal digits, returning the digits and the
remaining input (a building block for the regexes of rag.py). -/
def grabDigits : ℕ → List Char → Option (List Char × List Char)
  | 0, s => some ([], s)
  | n + 1, c :: cs =>
    if c.isDigit then (grabDigits n cs).map (fun p => (c :: p.1, p.2)) else none
  | _ + 1, [] => none

/-- Anchored match of a literal character sequence, returning the remaining
input. -/
def grabLit : List Char → List Char → Option (List Char)
  | [], s => some s
  | c :: cs, d :: ds => if c = d then grabLit cs ds else none
  | _ :: _, [] => none

/-- Whether the second list starts with the first one. -/
def leadsWith : List Char → List Char → Bool
  | [], _ => true
  | _ :: _, [] => false
  | c :: cs, d :: ds => c = d && leadsWith cs ds

/-- First occurrence of `sep` in the input: the part before it and the part
after it, scanning left to right (Python `str.split` order). -/
def breakSeq (sep : List Char) : List Char → Option (List Char × List Char)
  | [] => none
  | c :: cs =>
    if leadsWith sep (c :: cs) then some ([], (c :: cs).drop sep.length)
    else (breakSeq sep cs).map (fun p => (c :: p.1, p.2))

/-- Fuelled worker for splitOnSeq. -/
def splitSeqAux (sep : List Char) : ℕ → List Char → List (List Char)
  | 0, s => [s]
  | fuel + 1, s =>
    match breakSeq sep s with
    | none => [s]
    | some (pre, post) => pre :: splitSeqAux sep fuel post

/-- Python `str.split(sep)` for a non-empty separator string (used with the
separator of two newline characters by the block splitting of rag.py). -/
def splitOnSeq (sep s : List Char) : List (List Char) :=
  splitSeqAux sep (s.length + 1) s

/-- Python `str.split(sep)` for a single-character separator: splits at every
occurrence and keeps empty parts, so the empty string yields one empty part. -/
def pySplitChar (sep : Char) : List Char → List (List Char)
  | [] => [[]]
  | c :: cs =>
    if c = sep then [] :: pySplitChar sep cs
    else
      match pySplitChar sep cs with
      | [] => [[c]]
      | t :: ts => (c :: t) :: ts

/-- Numeric value of a decimal digit string. -/
def digitsVal (ds : List Char) : ℕ :=
  ds.foldl (fun a c => 10 * a + (c.toNat - '0'.toNat)) 0

/-- Plain run of decimal digits, or failure. -/
def pyIntDigits (ds : List Char) : Option ℕ :=
  if ds ≠ [] ∧ ds.all Char.isDigit then some (digitsVal ds) else none

/-- Signed numeral on the already stripped text of Python `int(str)`. -/
def pyIntSigned (t : List Char) : Option ℤ :=
  if t.head? = some '+' then (pyIntDigits (t.drop 1)).map (fun n => (n : ℤ))
  else if t.head? = some '-' then (pyIntDigits (t.drop 1)).map (fun n => -(n : ℤ))
  else (pyIntDigits t).map (fun n => (n : ℤ))

/-- Python `int(str)` on the numeral fragment the timestamp code can meet:
surrounding whitespace is stripped, an optional sign precedes one or more
decimal digits.  Underscore separators and non-decimal bases are outside the
model. -/
def pyInt? (s : List Char) : Option ℤ :=
  pyIntSigned (pyStrip s)

/-- Value of an integer part and a remainder for Python `float(str)`: the
remainder is empty, or a point followed by a digit run, with at least one
digit present overall. -/
def pyFloatParts (ip rest : List Char) : Option ℚ :=
  if rest = [] then
    (if ip ≠ [] then some ((digitsVal ip : ℚ)) else none)
  else if rest.head? = some '.' then
    (if (rest.drop 1).all Char.isDigit ∧ (ip ≠ [] ∨ rest.drop 1 ≠ []) then
      some ((digitsVal ip : ℚ) + (digitsVal (rest.drop 1) : ℚ) / 10 ^ (rest.drop 1).length)
    else none)
  else none

/-- Unsigned part of Python `float(str)`: digits, optionally followed by a
point and digits, with at least one digit present.  Exponents, infinities and
nan are outside the model. -/
def pyFloatMag (r : List Char) : Option ℚ :=
  pyFloatParts (r.takeWhile Char.isDigit) (r.drop (r.takeWhile Char.isDigit).length)

/-- Signed decimal on the already stripped text of Python `float(str)`. -/
def pyFloatSigned (t : List Char) : Option ℚ :=
  if t.head? = some '+' then pyFloatMag (t.drop 1)
  else if t.head? = some '-' then (pyFloatMag (t.drop 1)).map (fun q => -q)
  else pyFloatMag t

/-- Python `float(str)` on the decimal fragment the timestamp code can meet. -/
def pyFloat? (s : List Char) : Option ℚ :=
  pyFloatSigned (pyStrip s)

/-- rag.py `vtt_timestamp_to_seconds` (lines 26-38): split on colons; three
parts give int(h)*3600 + int(m)*60 + float(s), two parts give
int(m)*60 + float(s); a failed numeral or any other part count yields 0,
mirroring the bare try/except of the source. -/
def vtt_timestamp_to_seconds (ts : List Char) : ℚ :=
  match pySplitChar ':' ts with
  | [h, m, s] =>
    match pyInt? h, pyInt? m, pyFloat? s with
    | some hv, some mv, some sv => hv * 3600 + mv * 60 + sv
    | _, _, _ => 0
  | [m, s] =>
    match pyInt? m, pyFloat? s with
    | some mv, some sv => mv * 60 + sv
    | _, _ => 0
  | _ => 0

theorem isPySpace_of_isDigit (c : Char) (h : c.isDigit = true) :
    isPySpace c = false := by
  cases hx : isPySpace c with
  | false => rfl
  | true =>
    exfalso
    unfold isPySpace at hx
    simp only [Bool.or_eq_true, decide_eq_true_eq] at hx
    rcases hx with ((((rfl | rfl) | rfl) | rfl) | rfl) | rfl <;>
      exact absurd h (by decide)

theorem dropWhile_all_neg (p : Char → Bool) (s : List Char)
    (h : ∀ c ∈ s, p c = false) : s.dropWhile p = s := by
  cases s with
  | nil => rfl
  | cons c cs =>
    rw [List.dropWhile_cons_of_neg]
    simp [h c (List.mem_cons_self c cs)]

theorem pyStrip_no_space (s : List Char)
    (h : ∀ c ∈ s, isPySpace c = false) : pyStrip s = s := by
  unfold pyStrip pyLStrip pyRStrip
  rw [dropWhile_all_neg isPySpace s h]
  rw [dropWhile_all_neg isPySpace s.reverse (fun c hc => h c (List.mem_reverse.mp hc))]
  simp

theorem pySplitChar_cons_sep (sep : Char) (cs : List Char) :
    pySplitChar sep (sep :: cs) = [] :: pySplitChar sep cs := by
  conv_lhs => rw [pySplitChar]
  rw [if_pos rfl]

theorem pySplitChar_cons_ne (sep c : Char) (cs : List Char) (hc : ¬(c = sep)) :
    pySplitChar sep (c :: cs) =
      match pySplitChar sep cs with
      | [] => [[c]]
      | t :: ts => (c :: t) :: ts := by
  conv_lhs => rw [pySplitChar]
  rw [if_neg hc]

theorem pySplitChar_no_sep (sep : Char) (a : List Char) (h : sep ∉ a) :
    pySplitChar sep a = [a] := by
  induction a with
  | nil => rfl
  | cons c cs ih =>
    have hc : ¬(c = sep) := fun hh => h (hh ▸ List.mem_cons_self c cs)
    rw [pySplitChar_cons_ne sep c cs hc, ih (fun hm => h (List.mem_cons_of_mem c hm))]

theorem pySplitChar_append (sep : Char) (a rest : List Char) (h : sep ∉ a) :
    pySplitChar sep (a ++ sep :: rest) = a :: pySplitChar sep rest := by
  induction a with
  | nil => exact pySplitChar_cons_sep sep rest
  | cons c cs ih =>
    have hc : ¬(c = sep) := fun hh => h (hh ▸ List.mem_cons_self c cs)
    show pySplitChar sep (c :: (cs ++ sep :: rest)) = (c :: cs) :: pySplitChar sep rest
    rw [pySplitChar_cons_ne sep c _ hc, ih (fun hm => h (List.mem_cons_of_mem c hm))]

theorem digit_not_colon (a : List Char) (hd : a.all Char.isDigit = true) :
    (':' : Char) ∉ a := by
  intro hm
  have := List.all_eq_true.mp hd ':' hm
  exact absurd this (by decide)

theorem digit_head_not_sign (d : Char) (hd : d.isDigit = true) :
    d ≠ '+' ∧ d ≠ '-' := by
  constructor
  · intro hh
    subst hh
    exact absurd hd (by decide)
  · intro hh
    subst hh
    exact absurd hd (by decide)

theorem pyStrip_digits (ds : List Char) (hd : ds.all Char.isDigit = true) :
    pyStrip ds = ds :=
  pyStrip_no_space ds
    (fun c hc => isPySpace_of_isDigit c (List.all_eq_true.mp hd c hc))

theorem pyInt?_digits (ds : List Char) (hne : ds ≠ [])
    (hd : ds.all Char.isDigit = true) :
    pyInt? ds = some ((digitsVal ds : ℤ)) := by
  unfold pyInt?
  rw [pyStrip_digits ds hd]
  rcases ds with _ | ⟨d, tail⟩
  · exact absurd rfl hne
  · have hdd : d.isDigit = true := (List.all_eq_true.mp hd d (List.mem_cons_self d tail))
    rcases digit_head_not_sign d hdd with ⟨hp, hm⟩
    unfold pyIntSigned
    rw [if_neg (by simp [hp]), if_neg (by simp [hm])]
    unfold pyIntDigits
    rw [if_pos ⟨hne, hd⟩]
    rfl

theorem pyFloat?_digits_frac (ip fr : List Char) (hip : ip ≠ [])
    (hipd : ip.all Char.isDigit = true) (hfrd : fr.all Char.isDigit = true) :
    pyFloat? (ip ++ '.' :: fr) =
      some ((digitsVal ip : ℚ) + (digitsVal fr : ℚ) / 10 ^ fr.length) := by
  have hns : ∀ c ∈ ip ++ '.' :: fr, isPySpace c = false := by
    intro c hc
    rcases List.mem_append.mp hc with h1 | h2
    · exact isPySpace_of_isDigit c (List.all_eq_true.mp hipd c h1)
    · rcases List.mem_cons.mp h2 with rfl | h3
      · decide
      · exact isPySpace_of_isDigit c (List.all_eq_true.mp hfrd c h3)
  unfold pyFloat?
  rw [pyStrip_no_space _ hns]
  obtain ⟨d, tail, rfl⟩ := List.exists_cons_of_ne_nil hip
  have hdd : d.isDigit = true :=
    List.all_eq_true.mp hipd d (List.mem_cons_self d tail)
  rcases digit_head_not_sign d hdd with ⟨hp, hm⟩
  unfold pyFloatSigned
  rw [if_neg (by simp [hp]), if_neg (by simp [hm])]
  unfold pyFloatMag
  have htw : ((d :: tail) ++ '.' :: fr).takeWhile Char.isDigit = d :: tail := by
    rw [List.takeWhile_append_of_pos
      (fun a ha => List.all_eq_true.mp hipd a ha)]
    rw [List.takeWhile_cons_of_neg (p := Char.isDigit) (by decide)]
    simp
  rw [htw, List.drop_left]
  unfold pyFloatParts
  rw [if_neg (by simp), if_pos (show ('.' :: fr).head? = some '.' from rfl)]
  have hdrop : (('.' :: fr).drop 1) = fr := rfl
  rw [hdrop]
  rw [if_pos ⟨hfrd, Or.inl (by simp)⟩]

/-- Body of the first regex alternative of rag.py line 58 with an `hd`-digit
hour field: digits, colon, two digits, colon, two digits, point, three
digits.  Returns the captured text and the remaining input. -/
def tsHMS (hd : ℕ) (s : List Char) : Option (List Char × List Char) := do
  let (h, r1) ← grabDigits hd s
  let r2 ← grabLit [':'] r1
  let (m, r3) ← grabDigits 2 r2
  let r4 ← grabLit [':'] r3
  let (sec, r5) ← grabDigits 2 r4
  let r6 ← grabLit ['.'] r5
  let (ms, r7) ← grabDigits 3 r6
  pure (h ++ ':' :: m ++ ':' :: sec ++ '.' :: ms, r7)

/-- Second regex alternative of rag.py line 58: two digits, colon, two
digits, point, three digits. -/
def tsMS (s : List Char) : Option (List Char × List Char) := do
  let (m, r1) ← grabDigits 2 s
  let r2 ← grabLit [':'] r1
  let (sec, r3) ← grabDigits 2 r2
  let r4 ← grabLit ['.'] r3
  let (ms, r5) ← grabDigits 3 r4
  pure (m ++ ':' :: sec ++ '.' :: ms, r5)

/-- Requires the literal " -->" after a candidate capture, as the regex of
rag.py line 58 does; keeps only the captured group. -/
def tsArrow (p : Option (List Char × List Char)) : Option (List Char) := do
  let (g, r) ← p
  let _ ← grabLit " -->".data r
  pure g

/-- The anchored `re.match` of rag.py lines 58, 64 and 66: the alternation
and the greedy one-or-two-digit hour are tried in the same order as the
backtracking regex engine tries them (two-digit hour, one-digit hour, then
the minute-second form), and the match needs the literal " -->" right after
the captured timestamp.  Returns group 1. -/
def matchTimestampLine (l : List Char) : Option (List Char) :=
  (tsArrow (tsHMS 2 l)).orElse
    (fun _ => (tsArrow (tsHMS 1 l)).orElse (fun _ => tsArrow (tsMS l)))

/-- Claim C9's notion of a well-formed timestamp, following the claim's words
H:MM:SS.mmm or MM:SS.mmm: a one-or-two-digit hour, two-digit minutes and
seconds, three-digit milliseconds, with nothing else around.  This mirrors
the timestamp shapes of the subtitle regex (rag.py line 58). -/
def specWellFormedTimestamp (s : List Char) : Bool :=
  decide ((tsHMS 2 s).map Prod.snd = some []) ||
    decide ((tsHMS 1 s).map Prod.snd = some []) ||
    decide ((tsMS s).map Prod.snd = some [])

/-- The `re.sub` of rag.py line 46: remove a leading "WEBVTT" followed by one
or more newlines (the substitution is anchored at the start of the content,
so at most one occurrence is removed). -/
def stripWebVttHeader (content : List Char) : List Char :=
  match grabLit "WEBVTT".data content with
  | some rest =>
    if rest.takeWhile (fun c => c = '\n') = [] then content
    else rest.dropWhile (fun c => c = '\n')
  | none => content

/-- One block of rag.py `parse_vtt` (lines 52-70): strip each line, drop
blank lines, then read a timestamp from the first line (or, after a bare
sequence number, from the second line) and join the following lines with
single spaces. -/
def vttEntryOfBlock (block : List Char) : List Entry :=
  match ((pySplitChar '\n' block).map pyStrip).filter (fun l => l ≠ []) with
  | [] => []
  | l0 :: rest =>
    match matchTimestampLine l0 with
    | some g => [⟨vtt_timestamp_to_seconds g, List.intercalate [' '] rest⟩]
    | none =>
      match rest with
      | l1 :: rest2 =>
        match matchTimestampLine l1 with
        | some g => [⟨vtt_timestamp_to_seconds g, List.intercalate [' '] rest2⟩]
        | none => []
      | [] => []

/-- rag.py `parse_vtt` (lines 40-72), applied to the file content: strip the
WEBVTT header, split into blocks on blank lines, and convert each block to at
most one timestamped entry. -/
def parse_vtt (content : List Char) : List Entry :=
  ((splitOnSeq "\n\n".data (stripWebVttHeader content)).map vttEntryOfBlock).flatten

/-- Claim C6: the example subtitle content parses into the two expected
entries, and chunking those entries with budget 1000 yields exactly one chunk
with text "Hello world Second line" and representative offset 0. -/
theorem vtt_example_parse_and_chunk :
    parse_vtt ("WEBVTT\n\n00:00:00.000 --> 00:00:02.000\nHello world\n\n00:00:02.000 --> 00:00:04.000\nSecond line\n").data
        = [Entry.mk 0 "Hello world".data, Entry.mk 2 "Second line".data] ∧
      create_content_chunks
          (parse_vtt ("WEBVTT\n\n00:00:00.000 --> 00:00:02.000\nHello world\n\n00:00:02.000 --> 00:00:04.000\nSecond line\n").data)
          "vtt".data 1000
        = [Chunk.mk "Hello world Second line".data 0] := by
  constructor
  · with_unfolding_all rfl
  · with_unfolding_all rfl

/-- Claim C9 (amended): a timestamp of shape H:MM:SS.mmm or MM:SS.mmm (each
field a decimal digit run) converts to hours*3600 + minutes*60 + seconds, and
the conversion is total; an input whose colon split has a part count other
than two or three yields 0 rather than raising, and so does a two-or-three
part input whose fields fail numeric conversion (the except path of the
source); but an input with two or three numerically parseable fields
converts by the same arithmetic even when it is not in canonical form,
rather than yielding 0. -/
theorem timestamp_conversion_amended :
    (∀ h mm ss mmm : List Char,
      h ≠ [] → h.all Char.isDigit = true →
      mm ≠ [] → mm.all Char.isDigit = true →
      ss ≠ [] → ss.all Char.isDigit = true →
      mmm.all Char.isDigit = true →
      vtt_timestamp_to_seconds (h ++ ':' :: mm ++ ':' :: ss ++ '.' :: mmm)
        = (digitsVal h : ℚ) * 3600 + (digitsVal mm : ℚ) * 60 +
            ((digitsVal ss : ℚ) + (digitsVal mmm : ℚ) / 10 ^ mmm.length)) ∧
    (∀ mm ss mmm : List Char,
      mm ≠ [] → mm.all Char.isDigit = true →
      ss ≠ [] → ss.all Char.isDigit = true →
      mmm.all Char.isDigit = true →
      vtt_timestamp_to_seconds (mm ++ ':' :: ss ++ '.' :: mmm)
        = (digitsVal mm : ℚ) * 60 +
            ((digitsVal ss : ℚ) + (digitsVal mmm : ℚ) / 10 ^ mmm.length)) ∧
    (∀ s : List Char,
      (pySplitChar ':' s).length ≠ 2 → (pySplitChar ':' s).length ≠ 3 →
      vtt_timestamp_to_seconds s = 0) ∧
    (∀ s a b c : List Char,
      pySplitChar ':' s = [a, b, c] →
      pyInt? a = none ∨ pyInt? b = none ∨ pyFloat? c = none →
      vtt_timestamp_to_seconds s = 0) ∧
    (∀ s a b : List Char,
      pySplitChar ':' s = [a, b] →
      pyInt? a = none ∨ pyFloat? b = none →
      vtt_timestamp_to_seconds s = 0) := by
  refine ⟨?_, ?_, ?_, ?_, ?_⟩
  · intro h mm ss mmm hh hhd hmne hmd hsne hsd hmsd
    simp only [List.append_assoc, List.cons_append]
    have hnc : (':' : Char) ∉ ss ++ '.' :: mmm := by
      intro hm2
      rcases List.mem_append.mp hm2 with h1 | h2
      · exact absurd (List.all_eq_true.mp hsd ':' h1) (by decide)
      · rcases List.mem_cons.mp h2 with heq | h3
        · exact absurd heq (by decide)
        · exact absurd (List.all_eq_true.mp hmsd ':' h3) (by decide)
    have hsplit : pySplitChar ':' (h ++ ':' :: (mm ++ ':' :: (ss ++ '.' :: mmm)))
        = [h, mm, ss ++ '.' :: mmm] := by
      rw [pySplitChar_append ':' h _ (digit_not_colon h hhd),
        pySplitChar_append ':' mm _ (digit_not_colon mm hmd),
        pySplitChar_no_sep ':' _ hnc]
    have hred : vtt_timestamp_to_seconds (h ++ ':' :: (mm ++ ':' :: (ss ++ '.' :: mmm)))
        = (match pyInt? h, pyInt? mm, pyFloat? (ss ++ '.' :: mmm) with
           | some hv, some mv, some sv => (hv : ℚ) * 3600 + (mv : ℚ) * 60 + sv
           | _, _, _ => 0) := by
      unfold vtt_timestamp_to_seconds
      rw [hsplit]
    rw [hred, pyInt?_digits h hh hhd, pyInt?_digits mm hmne hmd,
      pyFloat?_digits_frac ss mmm hsne hsd hmsd]
    push_cast
    ring
  · intro mm ss mmm hmne hmd hsne hsd hmsd
    simp only [List.append_assoc, List.cons_append]
    have hnc : (':' : Char) ∉ ss ++ '.' :: mmm := by
      intro hm2
      rcases List.mem_append.mp hm2 with h1 | h2
      · exact absurd (List.all_eq_true.mp hsd ':' h1) (by decide)
      · rcases List.mem_cons.mp h2 with heq | h3
        · exact absurd heq (by decide)
        · exact absurd (List.all_eq_true.mp hmsd ':' h3) (by decide)
    have hsplit : pySplitChar ':' (mm ++ ':' :: (ss ++ '.' :: mmm))
        = [mm, ss ++ '.' :: mmm] := by
      rw [pySplitChar_append ':' mm _ (digit_not_colon mm hmd),
        pySplitChar_no_sep ':' _ hnc]
    have hred : vtt_timestamp_to_seconds (mm ++ ':' :: (ss ++ '.' :: mmm))
        = (match pyInt? mm, pyFloat? (ss ++ '.' :: mmm) with
           | some mv, some sv => (mv : ℚ) * 60 + sv
           | _, _ => 0) := by
      unfold vtt_timestamp_to_seconds
      rw [hsplit]
    rw [hred, pyInt?_digits mm hmne hmd,
      pyFloat?_digits_frac ss mmm hsne hsd hmsd]
    push_cast
    ring
  · intro s h2 h3
    unfold vtt_timestamp_to_seconds
    rcases hx : pySplitChar ':' s with _ | ⟨a, _ | ⟨b, _ | ⟨c, _ | ⟨d, rest⟩⟩⟩⟩
    · rfl
    · rfl
    · exact absurd (by rw [hx]; rfl : (pySplitChar ':' s).length = 2) h2
    · exact absurd (by rw [hx]; rfl : (pySplitChar ':' s).length = 3) h3
    · rfl
  · intro s a b c hsplit hfail
    have hred : vtt_timestamp_to_seconds s
        = (match pyInt? a, pyInt? b, pyFloat? c with
           | some hv, some mv, some sv => (hv : ℚ) * 3600 + (mv : ℚ) * 60 + sv
           | _, _, _ => 0) := by
      unfold vtt_timestamp_to_seconds
      rw [hsplit]
    rw [hred]
    rcases hA : pyInt? a with _ | av <;>
      rcases hB : pyInt? b with _ | bv <;>
        rcases hC : pyFloat? c with _ | cv <;>
          first
            | rfl
            | exact absurd hfail (by simp [hA, hB, hC])
  · intro s a b hsplit hfail
    have hred : vtt_timestamp_to_seconds s
        = (match pyInt? a, pyFloat? b with
           | some mv, some sv => (mv : ℚ) * 60 + sv
           | _, _ => 0) := by
      unfold vtt_timestamp_to_seconds
      rw [hsplit]
    rw [hred]
    rcases hA : pyInt? a with _ | av <;>
      rcases hB : pyFloat? b with _ | bv <;>
        first
          | rfl
          | exact absurd hfail (by simp [hA, hB])

theorem timestamp_conversion_amended_witness :
    (vtt_timestamp_to_seconds
        ("01".data ++ ':' :: "02".data ++ ':' :: "03".data ++ '.' :: "500".data)
      = (digitsVal "01".data : ℚ) * 3600 + (digitsVal "02".data : ℚ) * 60 +
          ((digitsVal "03".data : ℚ) +
            (digitsVal "500".data : ℚ) / 10 ^ ("500".data).length)) ∧
      vtt_timestamp_to_seconds ("ab:cd".data) = 0 :=
  ⟨timestamp_conversion_amended.1 "01".data "02".data "03".data "500".data
      (by decide) (by decide) (by decide) (by decide) (by decide) (by decide)
      (by decide),
    timestamp_conversion_amended.2.2.2.2 "ab:cd".data "ab".data "cd".data
      (by decide) (by decide)⟩

/-- Claim C9 counterexample: the string "1:2:3" is not a well-formed
H:MM:SS.mmm or MM:SS.mmm timestamp, yet the conversion yields 3723 rather
than the claimed 0. -/
theorem timestamp_malformed_nonzero :
    specWellFormedTimestamp ("1:2:3".data) = false ∧
      vtt_timestamp_to_seconds ("1:2:3".data) = 3723 ∧
      vtt_timestamp_to_seconds ("1:2:3".data) ≠ 0 := by
  refine ⟨by decide, by with_unfolding_all rfl, ?_⟩
  rw [show vtt_timestamp_to_seconds ("1:2:3".data) = 3723 from by
    with_unfolding_all rfl]
  norm_num

/-- One row of a Knowledge Base table: the record dictionaries assembled by
digest_documents (rag.py lines 333-342) and consumed by chat_with_kb, with
the embedding vector of abstract type V. -/
structure Record (V : Type) where
  vector : V
  text : List Char
  video_id : List Char
  ts : ℚ
  source : List Char
  file_type : List Char
  file_path : List Char
  file_hash : List Char
deriving DecidableEq, Repr

/-- Lookup of a named table in the LanceDB store, modelled as the list of
named tables: `kb_name in db.table_names()` together with
`db.open_table(kb_name)`. -/
def lookupKB {V : Type} :
    List (List Char × List (Record V)) → List Char → Option (List (Record V))
  | [], _ => none
  | (n, t) :: rest, name => if n = name then some t else lookupKB rest name

/-- Python `int()` applied to a float value: truncation toward zero, as in
`int(row['ts'])` at rag.py line 463. -/
def pyTrunc (q : ℚ) : ℤ := q.num.tdiv q.den

/-- Python `str()` of an int, as interpolated into the f-strings of
chat_with_kb. -/
def intToChars : ℤ → List Char
  | Int.ofNat n => Nat.toDigits 10 n
  | Int.negSucc n => '-' :: Nat.toDigits 10 (n + 1)

/-- The f-string of rag.py line 464: the YouTube deep link built from the
record's video_id and its truncated timestamp. -/
def urlOf {V : Type} (r : Record V) : List Char :=
  "https://youtu.be/".data ++ r.video_id ++ "?t=".data ++ intToChars (pyTrunc r.ts)

/-- One element of the citations list (rag.py line 467). -/
def mkCitation {V : Type} (refId : ℕ) (r : Record V) : List Char :=
  "[".data ++ Nat.toDigits 10 refId ++ "] ".data ++ urlOf r

/-- One element of the numbered context block (rag.py line 466). -/
def mkContextLine {V : Type} (refId : ℕ) (r : Record V) : List Char :=
  "[".data ++ Nat.toDigits 10 refId ++ "] (Source: ".data ++ urlOf r ++
    ")".data ++ '\n' :: r.text

/-- The loop `for i, row in results.iterrows()` of rag.py lines 461-467,
producing one value per retrieved record from its zero-based rank (the search
result frame carries the default integer index 0,1,2,...). -/
def numberedMap {V α : Type} (f : ℕ → Record V → α) :
    ℕ → List (Record V) → List α
  | _, [] => []
  | i, r :: rs => f i r :: numberedMap f (i + 1) rs

/-- Fixed text of the synthesis prompt before the context (rag.py
lines 473-477). -/
def promptPre : List Char :=
  ("\nYou are a helpful assistant. Use the following pieces of context from YouTube transcripts to answer the user's question.\nEvery time you use information from a context block, you MUST cite it using the format [N], where N is the reference number.\n\nContext:\n").data

/-- Fixed text of the synthesis prompt between context and question. -/
def promptMid : List Char := "\n\nQuestion: ".data

/-- Fixed text of the synthesis prompt after the question. -/
def promptPost : List Char :=
  "\n\nAnswer (including citations like [1], [2], etc.):\n".data

/-- The full synthesis prompt of rag.py lines 473-483. -/
def mkPrompt (context query : List Char) : List Char :=
  promptPre ++ context ++ promptMid ++ query ++ promptPost

/-- rag.py `chat_with_kb(kb_name, query)` (lines 440-485).  The LanceDB store
is the list of named tables; the embedding model, the nearest-neighbor search
and the generative model are external capabilities, passed as the parameters
embed, searchFn and gen.  Line 455, `table.search(query_embedding).limit(5)`,
is searchFn applied to the open table, the query vector and the limit 5.  A
missing Knowledge Base name returns the sentinel ("KB not found", []). -/
def chat_with_kb {V : Type} (db : List (List Char × List (Record V)))
    (embed : List Char → V)
    (searchFn : List (Record V) → V → ℕ → List (Record V))
    (gen : List Char → List Char)
    (kb_name query : List Char) : List Char × List (List Char) :=
  match lookupKB db kb_name with
  | none => ("KB not found".data, [])
  | some table =>
    let results := searchFn table (embed query) 5
    let contextLines := numberedMap (fun i r => mkContextLine (i + 1) r) 0 results
    let citations := numberedMap (fun i r => mkCitation (i + 1) r) 0 results
    let context := List.intercalate "\n\n".data contextLines
    (gen (mkPrompt context query), citations)

theorem numberedMap_length {V α : Type} (f : ℕ → Record V → α) :
    ∀ (l : List (Record V)) (i : ℕ), (numberedMap f i l).length = l.length
  | [], _ => rfl
  | _ :: rs, i => by
    simp [numberedMap, numberedMap_length f rs (i + 1)]

theorem numberedMap_get? {V α : Type} (f : ℕ → Record V → α) :
    ∀ (l : List (Record V)) (i j : ℕ),
      (numberedMap f i l).get? j = (l.get? j).map (fun r => f (i + j) r)
  | [], i, j => by simp [numberedMap]
  | r :: rs, i, 0 => by simp [numberedMap]
  | r :: rs, i, j + 1 => by
    have := numberedMap_get? f rs (i + 1) j
    simp only [numberedMap, List.get?_cons_succ, this]
    have harith : i + 1 + j = i + (j + 1) := by omega
    rw [harith]

/-- Claim C7: chat against a Knowledge Base name that is not in the store
returns the NotFound sentinel ("KB not found" with an empty citation list),
for every choice of the embedding, search and generation capabilities; the
result does not depend on any of them, so none is invoked and no
(answer, citations) pair composed from retrieved context is returned. -/
theorem chat_kb_not_found {V : Type} (db : List (List Char × List (Record V)))
    (embed : List Char → V)
    (searchFn : List (Record V) → V → ℕ → List (Record V))
    (gen : List Char → List Char) (kb_name query : List Char)
    (h : lookupKB db kb_name = none) :
    chat_with_kb db embed searchFn gen kb_name query = ("KB not found".data, []) := by
  unfold chat_with_kb
  rw [h]

theorem chat_kb_not_found_witness :
    chat_with_kb (V := Unit) [] (fun _ => ()) (fun t _ _ => t) (fun p => p)
        "kb".data "hi".data = ("KB not found".data, []) :=
  chat_kb_not_found [] (fun _ => ()) (fun t _ _ => t) (fun p => p)
    "kb".data "hi".data (by decide)

/-- Claim C2: for a chat call against an existing Knowledge Base, the
returned citation list has exactly one locator per retrieved record, in
retrieval order, with reference numbers 1..K; the j-th citation (0-based j)
carries reference number j+1 and belongs to the j-th retrieved record, and
the answer is generated from the context block numbered by the same scheme. -/
theorem chat_citation_alignment {V : Type}
    (db : List (List Char × List (Record V))) (embed : List Char → V)
    (searchFn : List (Record V) → V → ℕ → List (Record V))
    (gen : List Char → List Char) (kb_name query : List Char)
    (table : List (Record V)) (h : lookupKB db kb_name = some table) :
    ((chat_with_kb db embed searchFn gen kb_name query).2).length
        = (searchFn table (embed query) 5).length ∧
      (∀ j : ℕ, ((chat_with_kb db embed searchFn gen kb_name query).2).get? j
        = ((searchFn table (embed query) 5).get? j).map
            (fun r => mkCitation (j + 1) r)) ∧
      (chat_with_kb db embed searchFn gen kb_name query).1
        = gen (mkPrompt
            (List.intercalate "\n\n".data
              (numberedMap (fun i r => mkContextLine (i + 1) r) 0
                (searchFn table (embed query) 5)))
            query) := by
  unfold chat_with_kb
  rw [h]
  refine ⟨numberedMap_length _ _ _, fun j => ?_, rfl⟩
  rw [numberedMap_get?]
  simp

/-- Sample record with an empty source identifier, as a .txt-derived passage
record carries (digest_documents sets video_id to the empty string for
non-subtitle files). -/
def emptyVidRecord : Record Unit :=
  ⟨(), "note text".data, [], 0, "notes.txt".data, "txt".data,
    "/docs/notes.txt".data, "h1".data⟩

theorem chat_citation_alignment_witness :
    ((chat_with_kb [("kb".data, [emptyVidRecord])] (fun _ => ())
        (fun t _ _ => t) (fun p => p) "kb".data "q".data).2).get? 0
      = (([emptyVidRecord] : List (Record Unit)).get? 0).map
          (fun r => mkCitation 1 r) :=
  (chat_citation_alignment [("kb".data, [emptyVidRecord])] (fun _ => ())
    (fun t _ _ => t) (fun p => p) "kb".data "q".data [emptyVidRecord]
    (by decide)).2.1 0

/-- Claim C1 (amended): the locator paired with retrieved record j (reference
number j+1) is always the time-coded deep link built from the record's
source identifier and its truncated representative offset, even when the
source identifier is the empty string; the source file name is never used as
the locator. -/
theorem chat_locator_is_deep_link {V : Type}
    (db : List (List Char × List (Record V))) (embed : List Char → V)
    (searchFn : List (Record V) → V → ℕ → List (Record V))
    (gen : List Char → List Char) (kb_name query : List Char)
    (table : List (Record V)) (h : lookupKB db kb_name = some table) :
    ∀ (j : ℕ) (r : Record V),
      (searchFn table (embed query) 5).get? j = some r →
      ((chat_with_kb db embed searchFn gen kb_name query).2).get? j
        = some ("[".data ++ Nat.toDigits 10 (j + 1) ++ "] ".data ++
            "https://youtu.be/".data ++ r.video_id ++ "?t=".data ++
            intToChars (pyTrunc r.ts)) := by
  intro j r hr
  unfold chat_with_kb
  rw [h]
  rw [numberedMap_get?, hr]
  simp [mkCitation, urlOf]

theorem chat_locator_is_deep_link_witness :
    ((chat_with_kb [("kb".data, [emptyVidRecord])] (fun _ => ())
        (fun t _ _ => t) (fun p => p) "kb".data "q".data).2).get? 0
      = some ("[".data ++ Nat.toDigits 10 1 ++ "] ".data ++
          "https://youtu.be/".data ++ emptyVidRecord.video_id ++ "?t=".data ++
          intToChars (pyTrunc emptyVidRecord.ts)) :=
  chat_locator_is_deep_link [("kb".data, [emptyVidRecord])] (fun _ => ())
    (fun t _ _ => t) (fun p => p) "kb".data "q".data [emptyVidRecord]
    (by decide) 0 emptyVidRecord (by decide)

/-- Claim C1 counterexample: a retrieved record whose source identifier is
empty and whose source file name is "notes.txt" is paired with the locator
"[1] https://youtu.be/?t=0" built from the empty identifier, not with the
source file name alone. -/
theorem chat_locator_counterexample :
    ((chat_with_kb [("kb".data, [emptyVidRecord])] (fun _ => ())
        (fun t _ _ => t) (fun p => p) "kb".data "q".data).2
      = ["[1] https://youtu.be/?t=0".data]) ∧
    emptyVidRecord.video_id = [] ∧
    emptyVidRecord.source = "notes.txt".data ∧
    ((chat_with_kb [("kb".data, [emptyVidRecord])] (fun _ => ())
        (fun t _ _ => t) (fun p => p) "kb".data "q".data).2
      ≠ ["notes.txt".data]) ∧
    ((chat_with_kb [("kb".data, [emptyVidRecord])] (fun _ => ())
        (fun t _ _ => t) (fun p => p) "kb".data "q".data).2
      ≠ ["[1] notes.txt".data]) := by
  have hval : (chat_with_kb [("kb".data, [emptyVidRecord])] (fun _ => ())
      (fun t _ _ => t) (fun p => p) "kb".data "q".data).2
      = ["[1] https://youtu.be/?t=0".data] := by
    with_unfolding_all rfl
  refine ⟨hval, by decide, by decide, ?_, ?_⟩
  · rw [hval]
    decide
  · rw [hval]
    decide

/-- ASCII case folding of Python `str.lower()` (sufficient for the file
extensions the code dispatches on). -/
def pyLower (s : List Char) : List Char := s.map Char.toLower

/-- os.path.basename for POSIX paths: the part after the last slash. -/
def basename (p : List Char) : List Char := (pySplitChar '/' p).getLastD []

/-- Index of the last occurrence of a character. -/
def rfindIdx (c : Char) (s : List Char) : Option ℕ :=
  match s.reverse.findIdx? (fun d => d = c) with
  | none => none
  | some k => some (s.length - 1 - k)

/-- os.path.splitext for POSIX paths: the extension starts at the last dot
of the final path component, unless every character of that component before
the dot is itself a dot (so ".bashrc" has no extension). -/
def splitExt (p : List Char) : List Char × List Char :=
  match rfindIdx '.' (basename p) with
  | none => (p, [])
  | some i =>
    if ((basename p).take i).all (fun c => c = '.') then (p, [])
    else
      (p.take (p.length - ((basename p).length - i)),
        p.drop (p.length - ((basename p).length - i)))

/-- rag.py `parse_txt` (lines 156-174) applied to the file content: split on
blank-line boundaries, strip each paragraph, keep the non-empty ones, each
with timestamp zero. -/
def parse_txt (content : List Char) : List Entry :=
  (((splitOnSeq "\n\n".data content).map pyStrip).filter (fun t => t ≠ [])).map
    (fun t => ⟨0, t⟩)

/-- Header-line match of the separator regex of rag.py line 186, starting
right after a newline: one to six hash marks (a longer run never matches,
because the quantifier cannot leave a hash mark to the whitespace class),
then a maximal non-empty whitespace run, then a non-empty run of
non-newline characters closed by a newline.  Returns the captured separator
text and the input after the closing newline. -/
def mdHeaderAt (s : List Char) : Option (List Char × List Char) :=
  let hashes := s.takeWhile (fun c => c = '#')
  if hashes.length < 1 ∨ 6 < hashes.length then none
  else
    let rest := s.drop hashes.length
    let ws := rest.takeWhile isPySpace
    if ws = [] then none
    else
      let rest2 := rest.drop ws.length
      let txt := rest2.takeWhile (fun c => ¬(c = '\n'))
      if txt = [] then none
      else
        match rest2.drop txt.length with
        | '\n' :: post => some (hashes ++ ws ++ txt, post)
        | _ => none

/-- Leftmost occurrence of the header separator: a newline followed by a
header line.  Returns the text before the separator, the captured group and
the text after it. -/
def mdFindHeader : List Char → Option (List Char × List Char × List Char)
  | [] => none
  | c :: cs =>
    if c = '\n' then
      match mdHeaderAt cs with
      | some (cap, post) => some ([], cap, post)
      | none =>
        match mdFindHeader cs with
        | some (pre, cap, post) => some (c :: pre, cap, post)
        | none => none
    else
      match mdFindHeader cs with
      | some (pre, cap, post) => some (c :: pre, cap, post)
      | none => none

/-- Fuelled worker for mdSplit. -/
def mdSplitAux : ℕ → List Char → List (List Char)
  | 0, s => [s]
  | fuel + 1, s =>
    match mdFindHeader s with
    | none => [s]
    | some (pre, cap, post) => pre :: cap :: mdSplitAux fuel post

/-- The `re.split` with a capturing group of rag.py line 186: the sections
of the content interleaved with the captured header lines. -/
def mdSplit (s : List Char) : List (List Char) := mdSplitAux (s.length + 1) s

/-- The pairing loop of rag.py lines 189-197: each captured header at odd
index is joined with the following section when the stripped section is
non-empty. -/
def mdPairsAux : List (List Char) → List Entry
  | header :: text :: rest =>
    (if pyStrip text ≠ [] then
      [⟨0, pyStrip header ++ '\n' :: pyStrip text⟩]
    else []) ++ mdPairsAux rest
  | _ => []

/-- rag.py `parse_md` (lines 176-208) applied to the content: split on
markdown header separators, turn each (header, body) pair into one entry
"header\nbody", and fall back to paragraph splitting when no header
produced an entry. -/
def parse_md (content : List Char) : List Entry :=
  let entries :=
    match mdSplit content with
    | [] => []
    | _ :: rest => mdPairsAux rest
  if entries = [] then
    (((splitOnSeq "\n\n".data content).map pyStrip).filter (fun t => t ≠ [])).map
      (fun t => ⟨0, t⟩)
  else entries

/-- A source file: its path and its raw content (the filesystem of the
shallow embedding). -/
structure File where
  path : List Char
  content : List Char
deriving DecidableEq, Repr

/-- rag.py `process_document` (lines 221-233): dispatch on the lowercased
extension of the file path; an unsupported extension yields no entries and a
printed warning naming the file type and the offending path, modelled as a
returned notice list. -/
def process_document (f : File) : List Entry × List (List Char) :=
  if pyLower (splitExt f.path).2 = ".vtt".data then (parse_vtt f.content, [])
  else if pyLower (splitExt f.path).2 = ".txt".data then (parse_txt f.content, [])
  else if pyLower (splitExt f.path).2 = ".md".data ∨
      pyLower (splitExt f.path).2 = ".markdown".data then
    (parse_md f.content, [])
  else
    ([], ["Warning: Unsupported file type ".data ++ pyLower (splitExt f.path).2 ++
      " - skipping ".data ++ f.path])

/-- Character class [a-zA-Z0-9_-] of the video id regex (rag.py line 238). -/
def isIdChar (c : Char) : Bool :=
  c.isAlpha || c.isDigit || c = '_' || c = '-'

/-- Character class [a-z-] of the optional language tag. -/
def isLangChar (c : Char) : Bool := ('a' ≤ c && c ≤ 'z') || c = '-'

/-- Anchored-at-position body of the regex of rag.py line 238: eleven id
characters, a dot, an optional two-to-five character language tag with its
dot, then the literal vtt at the end of the string. -/
def vidMatchAt (s : List Char) : Option (List Char) :=
  if (s.take 11).length = 11 ∧ (s.take 11).all isIdChar then
    match s.drop 11 with
    | '.' :: rest =>
      if rest = "vtt".data then some (s.take 11)
      else
        if 2 ≤ (rest.takeWhile isLangChar).length ∧
            (rest.takeWhile isLangChar).length ≤ 5 ∧
            rest.drop (rest.takeWhile isLangChar).length = '.' :: "vtt".data then
          some (s.take 11)
        else none
    | _ => none
  else none

/-- The leftmost-match `re.search` of rag.py line 238: try every start
position from the left. -/
def vidSearch : List Char → Option (List Char)
  | [] => none
  | c :: cs =>
    match vidMatchAt (c :: cs) with
    | some g => some g
    | none => vidSearch cs

/-- rag.py `extract_video_id_from_vtt` (lines 235-243): the 11-character
token before the (optionally language-tagged) vtt extension; fallback to the
filename without its extension. -/
def extract_video_id_from_vtt (filename : List Char) : List Char :=
  match vidSearch filename with
  | some g => g
  | none => (splitExt filename).1

/-- Aggregate state of the digest file loop (rag.py lines 296-299): the open
table's rows, the three counters, and the printed lines. -/
structure DigestState (V : Type) where
  kb : List (Record V)
  processed : ℕ
  skipped : ℕ
  totalChunks : ℕ
  log : List (List Char)
deriving DecidableEq, Repr

/-- The duplicate check of rag.py line 308: whether some row of the table
carries the given content hash. -/
def hasHash {V : Type} (kb : List (Record V)) (h : List Char) : Bool :=
  kb.any (fun r => r.file_hash = h)

/-- The file type tag of rag.py line 304: extension of the basename without
its dot, lowercased. -/
def fileTypeOf (f : File) : List Char :=
  pyLower ((splitExt (basename f.path)).2.drop 1)

/-- The video id of rag.py lines 325-327: derived from the filename for
subtitle files, empty otherwise. -/
def videoIdOf (f : File) : List Char :=
  if fileTypeOf f = "vtt".data then extract_video_id_from_vtt (basename f.path)
  else []

/-- The per-chunk records assembled at rag.py lines 330-342. -/
def recordsOf {V : Type} (embed : List Char → V)
    (hashF : List Char → List Char) (f : File) : List (Record V) :=
  (create_content_chunks (process_document f).1 (fileTypeOf f) 1000).map
    (fun c => ⟨embed c.text, c.text, videoIdOf f, c.ts, basename f.path,
      fileTypeOf f, f.path, hashF f.content⟩)

/-- The skip notice of rag.py line 310. -/
def skipMsg (filename : List Char) : List Char :=
  "Skipping ".data ++ filename ++ " (already processed)".data

/-- The success notice of rag.py line 349. -/
def processedMsg (filename : List Char) (n : ℕ) : List Char :=
  "Processed ".data ++ filename ++ ": ".data ++ Nat.toDigits 10 n ++
    " chunks".data

/-- One iteration of the file loop of rag.py `digest_documents`
(lines 301-353): hash-based duplicate skip (checked before parsing), parse,
chunk, embed and append; a file with no entries or no chunks contributes
nothing and is counted neither processed nor skipped.  The MD5 content hash
and the embedding model are the parameters hashF and embed; in this pure
model the per-file try/except of the source has no exception to catch. -/
def digestStep {V : Type} (embed : List Char → V)
    (hashF : List Char → List Char) (st : DigestState V) (f : File) :
    DigestState V :=
  if hasHash st.kb (hashF f.content) then
    { st with
      skipped := st.skipped + 1
      log := st.log ++ [skipMsg (basename f.path)] }
  else if (process_document f).1 = [] then
    { st with log := st.log ++ (process_document f).2 }
  else if create_content_chunks (process_document f).1 (fileTypeOf f) 1000 = [] then
    { st with log := st.log ++ (process_document f).2 }
  else
    { st with
      kb := st.kb ++ recordsOf embed hashF f
      processed := st.processed + 1
      totalChunks := st.totalChunks + (recordsOf embed hashF f).length
      log := st.log ++ (process_document f).2 ++
        [processedMsg (basename f.path) (recordsOf embed hashF f).length] }

/-- The file loop of rag.py lines 301-353. -/
def digestLoop {V : Type} (embed : List Char → V)
    (hashF : List Char → List Char) (st : DigestState V)
    (files : List File) : DigestState V :=
  files.foldl (digestStep embed hashF) st

/-- Result dictionary of rag.py digest_documents: either one of the error
returns of lines 286 and 292, or the success counts of lines 355-360
(processed files, skipped files, total chunks). -/
inductive DigestOutcome where
  | failure : List Char → DigestOutcome
  | success : ℕ → ℕ → ℕ → DigestOutcome
deriving DecidableEq, Repr

/-- Processed-files count of an outcome. -/
def DigestOutcome.processedCount : DigestOutcome → ℕ
  | .failure _ => 0
  | .success p _ _ => p

/-- Skipped-files count of an outcome. -/
def DigestOutcome.skippedCount : DigestOutcome → ℕ
  | .failure _ => 0
  | .success _ s _ => s

/-- Total-chunks count of an outcome. -/
def DigestOutcome.chunkCount : DigestOutcome → ℕ
  | .failure _ => 0
  | .success _ _ t => t

/-- Whether an outcome is the success dictionary. -/
def DigestOutcome.isSuccess : DigestOutcome → Bool
  | .failure _ => false
  | .success _ _ _ => true

/-- Writing the updated table back into the store. -/
def replaceKB {V : Type} (db : List (List Char × List (Record V)))
    (name : List Char) (t : List (Record V)) :
    List (List Char × List (Record V)) :=
  db.map (fun p => if p.1 = name then (p.1, t) else p)

/-- rag.py `digest_documents` (lines 276-367).  File discovery over the real
filesystem (line 289) is replaced by passing the discovered candidate list
`files`; a missing Knowledge Base or an empty candidate list returns the
error dictionary and leaves the store unchanged; otherwise the file loop runs
with fresh counters and the updated table is written back. -/
def digest_documents {V : Type} (embed : List Char → V)
    (hashF : List Char → List Char)
    (db : List (List Char × List (Record V))) (kb_name : List Char)
    (files : List File) :
    List (List Char × List (Record V)) × DigestOutcome :=
  match lookupKB db kb_name with
  | none => (db, .failure "KB not found".data)
  | some table =>
    if files = [] then (db, .failure "No documents found".data)
    else
      (replaceKB db kb_name (digestLoop embed hashF ⟨table, 0, 0, 0, []⟩ files).kb,
        .success (digestLoop embed hashF ⟨table, 0, 0, 0, []⟩ files).processed
          (digestLoop embed hashF ⟨table, 0, 0, 0, []⟩ files).skipped
          (digestLoop embed hashF ⟨table, 0, 0, 0, []⟩ files).totalChunks)

theorem digestLoop_cons {V : Type} (embed : List Char → V)
    (hashF : List Char → List Char) (st : DigestState V) (f : File)
    (fs : List File) :
    digestLoop embed hashF st (f :: fs)
      = digestLoop embed hashF (digestStep embed hashF st f) fs := rfl

theorem digestStep_kb_append {V : Type} (embed : List Char → V)
    (hashF : List Char → List Char) (st : DigestState V) (f : File) :
    ∃ d, (digestStep embed hashF st f).kb = st.kb ++ d := by
  unfold digestStep
  by_cases h1 : hasHash st.kb (hashF f.content) = true
  · exact ⟨[], by simp [h1]⟩
  · by_cases h2 : (process_document f).1 = []
    · exact ⟨[], by simp [h1, h2]⟩
    · by_cases h3 : create_content_chunks (process_document f).1 (fileTypeOf f) 1000 = []
      · exact ⟨[], by simp [h1, h2, h3]⟩
      · exact ⟨recordsOf embed hashF f, by simp [h1, h2, h3]⟩

theorem digestLoop_kb_append {V : Type} (embed : List Char → V)
    (hashF : List Char → List Char) :
    ∀ (files : List File) (st : DigestState V),
      ∃ d, (digestLoop embed hashF st files).kb = st.kb ++ d
  | [], st => ⟨[], by simp [digestLoop]⟩
  | f :: fs, st => by
    obtain ⟨d1, h1⟩ := digestStep_kb_append embed hashF st f
    obtain ⟨d2, h2⟩ := digestLoop_kb_append embed hashF fs (digestStep embed hashF st f)
    refine ⟨d1 ++ d2, ?_⟩
    rw [digestLoop_cons, h2, h1, List.append_assoc]

theorem hasHash_mono {V : Type} (embed : List Char → V)
    (hashF : List Char → List Char) (files : List File) (st : DigestState V)
    (h : List Char) (hh : hasHash st.kb h = true) :
    hasHash (digestLoop embed hashF st files).kb h = true := by
  obtain ⟨d, hd⟩ := digestLoop_kb_append embed hashF files st
  rw [hd]
  unfold hasHash at hh ⊢
  rw [List.any_append, hh]
  rfl

theorem digestStep_add_hash {V : Type} (embed : List Char → V)
    (hashF : List Char → List Char) (st : DigestState V) (f : File)
    (h2 : (process_document f).1 ≠ [])
    (h3 : create_content_chunks (process_document f).1 (fileTypeOf f) 1000 ≠ []) :
    hasHash (digestStep embed hashF st f).kb (hashF f.content) = true := by
  by_cases h1 : hasHash st.kb (hashF f.content) = true
  · obtain ⟨d, hd⟩ := digestStep_kb_append embed hashF st f
    rw [hd]
    unfold hasHash at h1 ⊢
    rw [List.any_append, h1]
    rfl
  · have hkb : (digestStep embed hashF st f).kb = st.kb ++ recordsOf embed hashF f := by
      unfold digestStep
      simp [h1, h2, h3]
    rw [hkb]
    unfold hasHash
    rw [List.any_append]
    obtain ⟨c, cs, hc⟩ := List.exists_cons_of_ne_nil h3
    unfold recordsOf
    rw [hc]
    simp

theorem digestLoop_establishes {V : Type} (embed : List Char → V)
    (hashF : List Char → List Char) :
    ∀ (files : List File) (st : DigestState V) (f : File), f ∈ files →
      hasHash (digestLoop embed hashF st files).kb (hashF f.content) = true ∨
        (process_document f).1 = [] ∨
        create_content_chunks (process_document f).1 (fileTypeOf f) 1000 = []
  | [], _, f, hf => absurd hf (List.not_mem_nil f)
  | g :: fs, st, f, hf => by
    rcases List.mem_cons.mp hf with rfl | htail
    · by_cases h2 : (process_document f).1 = []
      · exact Or.inr (Or.inl h2)
      · by_cases h3 : create_content_chunks (process_document f).1 (fileTypeOf f) 1000 = []
        · exact Or.inr (Or.inr h3)
        · left
          rw [digestLoop_cons]
          exact hasHash_mono embed hashF fs _ _
            (digestStep_add_hash embed hashF st f h2 h3)
    · rw [digestLoop_cons]
      exact digestLoop_establishes embed hashF fs
        (digestStep embed hashF st g) f htail

theorem digestStep_preserves {V : Type} (embed : List Char → V)
    (hashF : List Char → List Char) (st : DigestState V) (f : File)
    (h : hasHash st.kb (hashF f.content) = true ∨
      (process_document f).1 = [] ∨
      create_content_chunks (process_document f).1 (fileTypeOf f) 1000 = []) :
    (digestStep embed hashF st f).kb = st.kb ∧
      (digestStep embed hashF st f).processed = st.processed ∧
      (digestStep embed hashF st f).totalChunks = st.totalChunks ∧
      (digestStep embed hashF st f).skipped
        = st.skipped +
            (if hasHash st.kb (hashF f.content) = true then 1 else 0) := by
  unfold digestStep
  by_cases h1 : hasHash st.kb (hashF f.content) = true
  · simp [h1]
  · rcases h with h1' | h2 | h3
    · exact absurd h1' h1
    · simp [h1, h2]
    · by_cases h2 : (process_document f).1 = []
      · simp [h1, h2]
      · simp [h1, h2, h3]

theorem digestLoop_noop {V : Type} (embed : List Char → V)
    (hashF : List Char → List Char) :
    ∀ (files : List File) (st : DigestState V),
      (∀ f ∈ files, hasHash st.kb (hashF f.content) = true ∨
        (process_document f).1 = [] ∨
        create_content_chunks (process_document f).1 (fileTypeOf f) 1000 = []) →
      (digestLoop embed hashF st files).kb = st.kb ∧
        (digestLoop embed hashF st files).processed = st.processed ∧
        (digestLoop embed hashF st files).totalChunks = st.totalChunks ∧
        (digestLoop embed hashF st files).skipped
          = st.skipped +
              (files.filter (fun f => hasHash st.kb (hashF f.content))).length
  | [], _, _ => ⟨rfl, rfl, rfl, by simp [digestLoop]⟩
  | g :: fs, st, hall => by
    obtain ⟨hk, hp, ht, hs⟩ := digestStep_preserves embed hashF st g
      (hall g (List.mem_cons_self g fs))
    have hall2 : ∀ f ∈ fs,
        hasHash (digestStep embed hashF st g).kb (hashF f.content) = true ∨
          (process_document f).1 = [] ∨
          create_content_chunks (process_document f).1 (fileTypeOf f) 1000 = [] := by
      intro f hf
      rcases hall f (List.mem_cons_of_mem g hf) with hH | hrest
      · exact Or.inl (by rw [hk]; exact hH)
      · exact Or.inr hrest
    obtain ⟨hk2, hp2, ht2, hs2⟩ := digestLoop_noop embed hashF fs
      (digestStep embed hashF st g) hall2
    rw [digestLoop_cons]
    refine ⟨hk2.trans hk, hp2.trans hp, ht2.trans ht, ?_⟩
    rw [hs2, hk, hs, List.filter_cons]
    by_cases hg : hasHash st.kb (hashF g.content) = true
    · simp only [hg, if_pos, if_true, List.length_cons]
      omega
    · simp only [hg, if_neg, Bool.false_eq_true, not_false_iff, if_false]
      omega

theorem lookupKB_replaceKB {V : Type} :
    ∀ (db : List (List Char × List (Record V))) (name : List Char)
      (t : List (Record V)), lookupKB db name ≠ none →
      lookupKB (replaceKB db name t) name = some t
  | [], _, _, h => absurd rfl h
  | ⟨n, tb⟩ :: rest, name, t, h => by
    by_cases hp : n = name
    · subst hp
      simp only [replaceKB, List.map_cons]
      simp [lookupKB]
    · have h2 : lookupKB rest name ≠ none := by
        simpa [lookupKB, hp] using h
      simp only [replaceKB, List.map_cons]
      simp only [hp, if_neg, not_false_iff]
      simp only [lookupKB, hp, if_neg, not_false_iff]
      exact lookupKB_replaceKB rest name t h2

theorem replaceKB_twice {V : Type} (db : List (List Char × List (Record V)))
    (name : List Char) (t1 t2 : List (Record V)) :
    replaceKB (replaceKB db name t1) name t2 = replaceKB db name t2 := by
  unfold replaceKB
  rw [List.map_map]
  apply List.map_congr_left
  intro p _
  by_cases h : p.1 = name
  · simp [Function.comp, h]
  · simp [Function.comp, h]

/-- Claim C5 (amended): running digest a second time over an unchanged file
set against the same Knowledge Base succeeds with zero processed files and
zero added chunks and leaves the store unchanged.  The second run counts as
skipped exactly the files whose content hash is in the table after the first
run, and every file that contributed records (parsed to entries and chunks)
has its hash there, so every such file is skipped through the content-hash
check; but a file that produced no chunks (for example one with an
unsupported extension) is re-parsed on the second run and counted neither
processed nor skipped, so the skipped count need not equal the file count. -/
theorem digest_idempotent {V : Type} (embed : List Char → V)
    (hashF : List Char → List Char)
    (db : List (List Char × List (Record V))) (kb_name : List Char)
    (files : List File) (table : List (Record V)) (hfiles : files ≠ [])
    (hlk : lookupKB db kb_name = some table) :
    (digest_documents embed hashF
        (digest_documents embed hashF db kb_name files).1 kb_name files).1
      = (digest_documents embed hashF db kb_name files).1 ∧
      ((digest_documents embed hashF
          (digest_documents embed hashF db kb_name files).1 kb_name files).2).isSuccess
        = true ∧
      ((digest_documents embed hashF
          (digest_documents embed hashF db kb_name files).1 kb_name files).2).processedCount
        = 0 ∧
      ((digest_documents embed hashF
          (digest_documents embed hashF db kb_name files).1 kb_name files).2).chunkCount
        = 0 ∧
      ((digest_documents embed hashF
          (digest_documents embed hashF db kb_name files).1 kb_name files).2).skippedCount
        = (files.filter (fun f =>
            hasHash (digestLoop embed hashF ⟨table, 0, 0, 0, []⟩ files).kb
              (hashF f.content))).length ∧
      (∀ f ∈ files, (process_document f).1 ≠ [] →
        create_content_chunks (process_document f).1 (fileTypeOf f) 1000 ≠ [] →
        hasHash (digestLoop embed hashF ⟨table, 0, 0, 0, []⟩ files).kb
          (hashF f.content) = true) := by
  have htable : lookupKB db kb_name ≠ none := by
    rw [hlk]
    exact fun hc => Option.noConfusion hc
  set db1 := (digest_documents embed hashF db kb_name files).1 with hdb1
  set F1 := digestLoop embed hashF ⟨table, 0, 0, 0, []⟩ files with hF1
  set F2 := digestLoop embed hashF ⟨F1.kb, 0, 0, 0, []⟩ files with hF2
  have hrun1 : db1 = replaceKB db kb_name F1.kb := by
    rw [hdb1]
    unfold digest_documents
    simp only [hlk]
    rw [if_neg hfiles]
  have hlk2 : lookupKB db1 kb_name = some F1.kb := by
    rw [hrun1]
    exact lookupKB_replaceKB db kb_name F1.kb htable
  have hall : ∀ f ∈ files,
      hasHash F1.kb (hashF f.content) = true ∨
        (process_document f).1 = [] ∨
        create_content_chunks (process_document f).1 (fileTypeOf f) 1000 = [] :=
    fun f hf => digestLoop_establishes embed hashF files ⟨table, 0, 0, 0, []⟩ f hf
  obtain ⟨hk2, hp2, ht2, hs2⟩ :=
    digestLoop_noop embed hashF files ⟨F1.kb, 0, 0, 0, []⟩ hall
  have hrun2 : digest_documents embed hashF db1 kb_name files
      = (replaceKB db1 kb_name F2.kb,
          .success F2.processed F2.skipped F2.totalChunks) := by
    unfold digest_documents
    simp only [hlk2]
    rw [if_neg hfiles]
  rw [hrun2]
  have hfk : F2.kb = F1.kb := hk2
  have hfp : F2.processed = 0 := hp2
  have hft : F2.totalChunks = 0 := ht2
  have hfs : F2.skipped
      = 0 + (files.filter (fun f => hasHash F1.kb (hashF f.content))).length := hs2
  refine ⟨?_, rfl, ?_, ?_, ?_, ?_⟩
  · show replaceKB db1 kb_name F2.kb = db1
    rw [hfk, hrun1, replaceKB_twice]
  · show F2.processed = 0
    exact hfp
  · show F2.totalChunks = 0
    exact hft
  · show F2.skipped
      = (files.filter (fun f => hasHash F1.kb (hashF f.content))).length
    rw [hfs, Nat.zero_add]
  · intro f hf hne hch
    rcases hall f hf with hH | h | h
    · exact hH
    · exact absurd h hne
    · exact absurd h hch

theorem digest_idempotent_witness :
    (digest_documents (V := Unit) (fun _ => ()) (fun c => c)
        ((digest_documents (fun _ => ()) (fun c => c) [("kb".data, [])]
            "kb".data [File.mk "/d/a.txt".data "hello".data]).1)
        "kb".data [File.mk "/d/a.txt".data "hello".data]).1
      = (digest_documents (fun _ => ()) (fun c => c) [("kb".data, [])]
          "kb".data [File.mk "/d/a.txt".data "hello".data]).1 ∧
      ((digest_documents (V := Unit) (fun _ => ()) (fun c => c)
          ((digest_documents (fun _ => ()) (fun c => c) [("kb".data, [])]
              "kb".data [File.mk "/d/a.txt".data "hello".data]).1)
          "kb".data [File.mk "/d/a.txt".data "hello".data]).2).isSuccess
        = true ∧
      ((digest_documents (V := Unit) (fun _ => ()) (fun c => c)
          ((digest_documents (fun _ => ()) (fun c => c) [("kb".data, [])]
              "kb".data [File.mk "/d/a.txt".data "hello".data]).1)
          "kb".data [File.mk "/d/a.txt".data "hello".data]).2).processedCount
        = 0 ∧
      ((digest_documents (V := Unit) (fun _ => ()) (fun c => c)
          ((digest_documents (fun _ => ()) (fun c => c) [("kb".data, [])]
              "kb".data [File.mk "/d/a.txt".data "hello".data]).1)
          "kb".data [File.mk "/d/a.txt".data "hello".data]).2).chunkCount
        = 0 ∧
      ((digest_documents (V := Unit) (fun _ => ()) (fun c => c)
          ((digest_documents (fun _ => ()) (fun c => c) [("kb".data, [])]
              "kb".data [File.mk "/d/a.txt".data "hello".data]).1)
          "kb".data [File.mk "/d/a.txt".data "hello".data]).2).skippedCount
        = (([File.mk "/d/a.txt".data "hello".data]).filter (fun f =>
            hasHash (digestLoop (fun _ => ()) (fun c => c)
                (⟨[], 0, 0, 0, []⟩ : DigestState Unit)
                [File.mk "/d/a.txt".data "hello".data]).kb
              ((fun c => c) f.content))).length :=
  let D := digest_idempotent (fun _ => ()) (fun c => c) [("kb".data, [])]
    "kb".data [File.mk "/d/a.txt".data "hello".data] [] (by decide) (by decide)
  ⟨D.1, D.2.1, D.2.2.1, D.2.2.2.1, D.2.2.2.2.1⟩

/-- Claim C5 counterexample: over the file set consisting of one file with
the unsupported extension .pdf, digest leaves the store unchanged and
reports processed 0, skipped 0, chunks 0; since the store comes back
unchanged, the same equation describes the second run over the unchanged
file set, whose skipped count 0 differs from the file count 1 — so not
every file is counted as skipped on the second run. -/
theorem digest_skip_counterexample :
    digest_documents (V := Unit) (fun _ => ()) (fun c => c)
        [("kb".data, [])] "kb".data [File.mk "/docs/a.pdf".data "x".data]
      = ([("kb".data, [])], DigestOutcome.success 0 0 0) ∧
      [File.mk "/docs/a.pdf".data "x".data].length = 1 := by
  refine ⟨?_, rfl⟩
  with_unfolding_all rfl

/-- Claim C8: a file whose extension is not one of the supported set (.vtt,
.txt, .md, .markdown after lowercasing) makes the parser step return an
empty entry sequence plus a skip notice that names the offending path, and
the ingestion loop proceeds to the remaining files with nothing but that
notice added to the log (the content hash, checked before parsing, not being
present in the table). -/
theorem unsupported_extension_skips {V : Type} (embed : List Char → V)
    (hashF : List Char → List Char) (f : File) (st : DigestState V)
    (rest : List File)
    (h1 : pyLower (splitExt f.path).2 ≠ ".vtt".data)
    (h2 : pyLower (splitExt f.path).2 ≠ ".txt".data)
    (h3 : pyLower (splitExt f.path).2 ≠ ".md".data)
    (h4 : pyLower (splitExt f.path).2 ≠ ".markdown".data)
    (hhash : hasHash st.kb (hashF f.content) = false) :
    process_document f
        = ([], ["Warning: Unsupported file type ".data ++
            pyLower (splitExt f.path).2 ++ " - skipping ".data ++ f.path]) ∧
      f.path <:+ ("Warning: Unsupported file type ".data ++
        pyLower (splitExt f.path).2 ++ " - skipping ".data ++ f.path) ∧
      digestLoop embed hashF st (f :: rest)
        = digestLoop embed hashF
            { st with log := st.log ++
                ["Warning: Unsupported file type ".data ++
                  pyLower (splitExt f.path).2 ++ " - skipping ".data ++ f.path] }
            rest := by
  have hpd : process_document f
      = ([], ["Warning: Unsupported file type ".data ++
          pyLower (splitExt f.path).2 ++ " - skipping ".data ++ f.path]) := by
    unfold process_document
    rw [if_neg h1, if_neg h2, if_neg (not_or.mpr ⟨h3, h4⟩)]
  refine ⟨hpd, ⟨"Warning: Unsupported file type ".data ++
    pyLower (splitExt f.path).2 ++ " - skipping ".data, rfl⟩, ?_⟩
  rw [digestLoop_cons]
  have hstep : digestStep embed hashF st f
      = { st with log := st.log ++
          ["Warning: Unsupported file type ".data ++
            pyLower (splitExt f.path).2 ++ " - skipping ".data ++ f.path] } := by
    unfold digestStep
    rw [hpd]
    simp [hhash]
  rw [hstep]

theorem unsupported_extension_skips_witness :
    process_document (File.mk "/docs/a.pdf".data "x".data)
        = ([], ["Warning: Unsupported file type ".data ++
            pyLower (splitExt ("/docs/a.pdf".data)).2 ++ " - skipping ".data ++
            "/docs/a.pdf".data]) ∧
      ("/docs/a.pdf".data) <:+ ("Warning: Unsupported file type ".data ++
        pyLower (splitExt ("/docs/a.pdf".data)).2 ++ " - skipping ".data ++
        "/docs/a.pdf".data) ∧
      digestLoop (V := Unit) (fun _ => ()) (fun c => c) ⟨[], 0, 0, 0, []⟩
          [File.mk "/docs/a.pdf".data "x".data]
        = digestLoop (fun _ => ()) (fun c => c)
            { (⟨[], 0, 0, 0, []⟩ : DigestState Unit) with log :=
                ([] : List (List Char)) ++
                  ["Warning: Unsupported file type ".data ++
                    pyLower (splitExt ("/docs/a.pdf".data)).2 ++
                    " - skipping ".data ++ "/docs/a.pdf".data] }
            [] :=
  unsupported_extension_skips (fun _ => ()) (fun c => c)
    (File.mk "/docs/a.pdf".data "x".data) ⟨[], 0, 0, 0, []⟩ []
    (by decide) (by decide) (by decide) (by decide) (by decide)
